import Mathlib

/-!
Verification development for the AutoBuilder python worker
(`src/python-worker/update_manager.py` and `src/python-worker/worker_update.py`).

The stateful python code is embedded shallowly:
* the local filesystem rooted at the base directory of the worker is an explicit
  association list from relative path (forward-slash separated, as produced by
  the code) to file content; backup files written by `apply_changes` live in
  the same store under their `.ai_patch_backups/<basename>.bak` key, exactly
  as they do on disk;
* fallible operations return `Except`: a python exception that propagates out
  of `update_manager.request_update` is an `Except.error` carrying the
  exception message, which the `worker_update` wrappers catch and convert
  into the uniform result envelope;
* the two external services (the completion API and the GitHub API) are an
  oracle structure `RemoteEnv` fixing the outcome of each HTTP call of one
  invocation; `raise_for_status` on a non-success outcome is the `.error`
  case of the corresponding oracle field.
-/

namespace AutoBuilder

/-- A patch `Change` as consumed by `apply_changes` and `request_update`:
a JSON object with a required `path` and optional `action` / `content`
string fields (through the dictionary get accessors with defaults). -/
structure Change where
  path : String
  action : Option String
  content : Option String
deriving DecidableEq, Repr

/-- One element of the list returned by `apply_changes`:
`{"path": ..., "status": ...}`. -/
structure ApplyResult where
  path : String
  status : String
deriving DecidableEq, Repr

/-- The local file tree under the base directory: relative path to content.
A real directory tree is a partial map, so updates remove any previous
binding for the key. -/
abbrev FS := List (String × String)

/-- Read a file (`open(full_path).read()` / `os.path.exists`). -/
def fsGet : FS → String → Option String
  | [], _ => none
  | (k, v) :: rest, p => if k = p then some v else fsGet rest p

/-- Remove a path (`os.remove`). -/
def fsErase : FS → String → FS
  | [], _ => []
  | (k, v) :: rest, p =>
    if k = p then fsErase rest p else (k, v) :: fsErase rest p

/-- Write a file, replacing any prior content (`open(full_path, "w").write`). -/
def fsSet (fs : FS) (p c : String) : FS :=
  (p, c) :: fsErase fs p

/-- Number of directory entries stored at path `p` (a real filesystem holds
at most one; `fsSet` maintains this). -/
def fsCount : FS → String → Nat
  | [], _ => 0
  | (k, _) :: rest, p =>
    (if k = p then 1 else 0) + fsCount rest p

/-- Backup directory name used by `apply_changes` (default argument `backup_dir`). -/
def backupDirName : String := ".ai_patch_backups"

/-- Characters after the last separator: loop kept structural so that it
evaluates inside the kernel. -/
def basenameAux (cur : List Char) : List Char → List Char
  | [] => cur
  | c :: cs => if c = '/' then basenameAux [] cs else basenameAux (cur ++ [c]) cs

/-- Model of `os.path.basename` on a forward-slash relative path. -/
def basenameOf (rel : String) : String :=
  String.mk (basenameAux [] rel.toList)

/-- Python `str.strip()` with no argument: drop leading and trailing
whitespace. -/
def pyStrip (s : String) : String :=
  String.mk (((s.toList.dropWhile Char.isWhitespace).reverse.dropWhile
    Char.isWhitespace).reverse)

/-- Relative path of the backup file `apply_changes` writes for `rel`:
`os.path.join(backup_path, f"{os.path.basename(full_path)}.bak")`, keyed by
base name only. -/
def backupKey (rel : String) : String :=
  backupDirName ++ "/" ++ basenameOf rel ++ ".bak"

/-- One iteration of the loop in `apply_changes`
(`update_manager.py` lines 127-159): create/modify backs up an existing
target then overwrites it, delete removes an existing target, anything
else is reported as `unknown_action`. -/
def applyOne (fs : FS) (ch : Change) : FS × ApplyResult :=
  let rel := ch.path
  let action := ch.action.getD "modify"
  let content := ch.content.getD ""
  if action = "create" ∨ action = "modify" then
    let fs1 :=
      match fsGet fs rel with
      | some old => fsSet fs (backupKey rel) old
      | none => fs
    (fsSet fs1 rel content, ⟨rel, "written"⟩)
  else if action = "delete" then
    match fsGet fs rel with
    | some _ => (fsErase fs rel, ⟨rel, "deleted"⟩)
    | none => (fs, ⟨rel, "not_found"⟩)
  else
    (fs, ⟨rel, "unknown_action"⟩)

/-- Model of `apply_changes(base_dir, changes)`: fold `applyOne` over the change list
in order, collecting one `ApplyResult` per change. -/
def apply_changes (fs : FS) : List Change → FS × List ApplyResult
  | [] => (fs, [])
  | ch :: rest =>
    let fr := applyOne fs ch
    let tail := apply_changes fr.1 rest
    (tail.1, fr.2 :: tail.2)

theorem fsGet_fsErase_self (fs : FS) (p : String) :
    fsGet (fsErase fs p) p = none := by
  induction fs with
  | nil => rfl
  | cons e rest ih =>
    obtain ⟨k, v⟩ := e
    by_cases h : k = p
    · simpa [fsErase, h] using ih
    · simpa [fsErase, h, fsGet] using ih

theorem fsGet_fsErase_ne (fs : FS) (p q : String) (h : q ≠ p) :
    fsGet (fsErase fs p) q = fsGet fs q := by
  induction fs with
  | nil => rfl
  | cons e rest ih =>
    obtain ⟨k, v⟩ := e
    by_cases he : k = p
    · simp [fsErase, he, fsGet, Ne.symm h, ih]
    · by_cases hq : k = q
      · simp [fsErase, he, fsGet, hq, h]
      · simp [fsErase, he, fsGet, hq, ih]

theorem fsGet_fsSet_self (fs : FS) (p c : String) :
    fsGet (fsSet fs p c) p = some c := by
  simp [fsSet, fsGet]

theorem fsGet_fsSet_ne (fs : FS) (p q c : String) (h : q ≠ p) :
    fsGet (fsSet fs p c) q = fsGet fs q := by
  simp [fsSet, fsGet, Ne.symm h, fsGet_fsErase_ne fs p q h]

theorem fsCount_fsErase_ne (fs : FS) (p q : String) (h : p ≠ q) :
    fsCount (fsErase fs q) p = fsCount fs p := by
  induction fs with
  | nil => rfl
  | cons e rest ih =>
    obtain ⟨k, v⟩ := e
    by_cases he : k = q
    · simp [fsErase, he, fsCount, Ne.symm h, ih]
    · by_cases hp : k = p
      · simp [fsErase, he, fsCount, hp, ih, h]
      · simp [fsErase, he, fsCount, hp, ih]

theorem fsCount_fsErase_self (fs : FS) (p : String) :
    fsCount (fsErase fs p) p = 0 := by
  induction fs with
  | nil => rfl
  | cons e rest ih =>
    obtain ⟨k, v⟩ := e
    by_cases h : k = p
    · simpa [fsErase, h] using ih
    · simpa [fsErase, h, fsCount] using ih

theorem fsCount_fsSet_self (fs : FS) (p c : String) :
    fsCount (fsSet fs p c) p = 1 := by
  simp [fsSet, fsCount, fsCount_fsErase_self]

theorem fsCount_fsSet_ne (fs : FS) (p q c : String) (h : p ≠ q) :
    fsCount (fsSet fs q c) p = fsCount fs p := by
  simp [fsSet, fsCount, Ne.symm h, fsCount_fsErase_ne fs p q h]

theorem apply_changes_length (fs : FS) (cs : List Change) :
    (apply_changes fs cs).2.length = cs.length := by
  induction cs generalizing fs with
  | nil => rfl
  | cons c rest ih => simp [apply_changes, ih]

/-- The patch document fields `request_update` reads off the decoded JSON
(`js.get("changes", [])`, `js.get("summary", "")`, `js.get("pr_title", ...)`,
`js.get("pr_body", ...)`). -/
structure PatchDoc where
  changes : List Change
  summary : Option String
  prTitle : Option String
  prBody : Option String
deriving DecidableEq, Repr

/-- The filter of the `files` comprehension in `request_update`
(line 290): `c.get("action") in ("create", "modify")` — an absent action
yields `None`, which is not in the tuple. -/
def remoteIncluded (c : Change) : Bool :=
  match c.action with
  | some a => a == "create" || a == "modify"
  | none => false

/-- The `files` comprehension of `request_update` (lines 288-291):
`[{"path": c["path"], "content": c["content"]} for c in changes if ...]`.
The unconditional `c["content"]` subscript raises `KeyError` when the key
is absent. -/
def buildFiles : List Change → Except String (List (String × String))
  | [] => .ok []
  | c :: cs =>
    if remoteIncluded c then
      match c.content with
      | none => .error "KeyError"
      | some cont =>
        match buildFiles cs with
        | .error e => .error e
        | .ok rest => .ok ((c.path, cont) :: rest)
    else buildFiles cs

/-- Outcomes of the external HTTP calls of one apply-flow invocation.
`parsedDoc` folds together `compute_repo_summary`, `call_openai` and
`parse_ai_response` plus the field reads on the decoded document: its
`.error` case is any exception raised before `apply_changes` runs. Each
remaining field is the oracle for one GitHub request; `.error` means
`raise_for_status` throws there. The branch-creation POST of
`ensure_branch` has no field because its outcome is ignored by the code
("if branch exists, ignore error"). The pull-request POST never raises in
`create_pull_request` itself: `prStatusOk` is what its later
`raise_for_status` check sees, `prHtmlUrl` is `pr.json().get("html_url")`,
`prText` is `pr.text`. -/
structure RemoteEnv where
  parsedDoc : Except String PatchDoc
  baseRefSha : Except String String
  blobSha : Nat → Except String String
  baseCommitTree : Except String String
  newTreeSha : Except String String
  newCommitSha : Except String String
  refUpdate : Except String Unit
  prStatusOk : Bool
  prHtmlUrl : Option String
  prText : String

/-- Python `dict` assignment `blob_map[f["path"]] = sha`: replace in place
or append. -/
def dictSet : List (String × String) → String → String → List (String × String)
  | [], k, v => [(k, v)]
  | (k0, v0) :: rest, k, v =>
    if k0 = k then (k, v) :: rest else (k0, v0) :: dictSet rest k v

/-- Loop of `create_blobs` (lines 191-201): one blob POST per element of
`files`, in order, recording `path → sha`; the first non-success status
raises. The oracle indexes POSTs by position. -/
def create_blobs_aux (env : RemoteEnv) :
    Nat → List (String × String) → List (String × String) →
    Except String (List (String × String))
  | _, [], acc => .ok acc
  | i, f :: rest, acc =>
    match env.blobSha i with
    | .error e => .error e
    | .ok sha => create_blobs_aux env (i + 1) rest (dictSet acc f.1 sha)

def create_blobs (env : RemoteEnv) (files : List (String × String)) :
    Except String (List (String × String)) :=
  create_blobs_aux env 0 files []

/-- One element of `tree_items` in `create_tree_and_commit`
(lines 213-220). -/
structure TreeItem where
  path : String
  mode : String
  entryType : String
  sha : String
deriving DecidableEq, Repr

/-- The `tree_items` list built from `blob_map` (lines 213-220): one
`{"path", "mode": "100644", "type": "blob", "sha"}` entry per map item. -/
def tree_items_of (blob_map : List (String × String)) : List TreeItem :=
  blob_map.map (fun kv => ⟨kv.1, "100644", "blob", kv.2⟩)

/-- The raising remote sub-steps of `request_update` (lines 295-298):
`ensure_branch` (its base-ref GET), `create_blobs`,
`create_tree_and_commit` (base-commit GET, tree POST, commit POST) and
`update_branch`, chained in order; each propagates the first exception.
Returns the `tree_items` sent in the tree POST. -/
def remotePipeline (env : RemoteEnv) (files : List (String × String)) :
    Except String (List TreeItem) :=
  match env.baseRefSha with
  | .error e => .error e
  | .ok _baseSha =>
    match create_blobs env files with
    | .error e => .error e
    | .ok blobMap =>
      match env.baseCommitTree with
      | .error e => .error e
      | .ok _baseTree =>
        match env.newTreeSha with
        | .error e => .error e
        | .ok _treeSha =>
          match env.newCommitSha with
          | .error e => .error e
          | .ok _commitSha =>
            match env.refUpdate with
            | .error e => .error e
            | .ok _ => .ok (tree_items_of blobMap)

/-- The result dictionary of the public apply entry point. `none` in an
`Option` field models the key being absent from the returned dict;
`hasTrace` records whether the `"trace"` key is present. -/
structure Envelope where
  ok : Bool
  pr_url : Option String
  summary : Option String
  applied : Option (List ApplyResult)
  error : Option String
  hasTrace : Bool
deriving DecidableEq, Repr

/-- Model of `update_manager.request_update` from the point where the patch document
is in hand (lines 280-316): apply locally, build `files`, run the raising
remote sub-steps, then check the captured pull-request response. The first
component is the file tree the invocation leaves behind; `Except.error`
is an exception escaping to the caller. -/
def um_request_update (env : RemoteEnv) (doc : PatchDoc) (fs0 : FS) :
    FS × Except String Envelope :=
  let applied := apply_changes fs0 doc.changes
  match buildFiles doc.changes with
  | .error e => (applied.1, .error e)
  | .ok files =>
    match remotePipeline env files with
    | .error e => (applied.1, .error e)
    | .ok _items =>
      if env.prStatusOk then
        (applied.1,
          .ok ⟨true, env.prHtmlUrl, some (doc.summary.getD ""),
            some applied.2, none, false⟩)
      else
        (applied.1,
          .ok ⟨false, none, none, some applied.2, some env.prText, false⟩)

/-- A validation-failure envelope of `worker_update` (no `"trace"` key). -/
def failEnv (msg : String) : Envelope :=
  ⟨false, none, none, none, some msg, false⟩

/-- The catch-all envelope of `worker_update`
(`{"ok": False, "error": str(e), "trace": ...}`). -/
def caughtEnv (msg : String) : Envelope :=
  ⟨false, none, none, none, some msg, true⟩

/-- Model of `worker_update.request_update` (lines 44-90): blank-input validation in
order, then the update flow with every exception converted to the uniform
failure envelope. -/
def worker_request_update (request_text openai_key gh_token gh_owner gh_repo : String)
    (env : RemoteEnv) (fs0 : FS) : FS × Envelope :=
  if pyStrip request_text = "" then (fs0, failEnv "Empty request_text")
  else if pyStrip openai_key = "" then (fs0, failEnv "Missing OpenAI key")
  else if pyStrip gh_token = "" then (fs0, failEnv "Missing GitHub token")
  else if pyStrip gh_owner = "" then (fs0, failEnv "Missing GitHub owner")
  else if pyStrip gh_repo = "" then (fs0, failEnv "Missing GitHub repo name")
  else
    match env.parsedDoc with
    | .error e => (fs0, caughtEnv e)
    | .ok doc =>
      match um_request_update env doc fs0 with
      | (fs1, .error e) => (fs1, caughtEnv e)
      | (fs1, .ok envl) => (fs1, envl)

/-- A decoded JSON value. Number literals are kept as their lexeme: no
claim computes with numeric values. -/
inductive Json where
  | null : Json
  | bool (b : Bool) : Json
  | num (lit : String) : Json
  | str (s : String) : Json
  | arr (elems : List Json) : Json
  | obj (fields : List (String × Json)) : Json

/-- The whitespace characters of the JSON grammar, as skipped by
`json.loads`. -/
def isJsonWs (c : Char) : Bool :=
  c = ' ' || c = '\t' || c = '\n' || c = '\r'

def skipWs : List Char → List Char
  | [] => []
  | c :: cs => if isJsonWs c then skipWs cs else c :: cs

/-- JSON string escape characters (the `\u` form is not needed by any
input considered here and is left undecodable). -/
def escapeChar (c : Char) : Option Char :=
  if c = '"' then some '"'
  else if c = '\\' then some '\\'
  else if c = '/' then some '/'
  else if c = 'n' then some '\n'
  else if c = 't' then some '\t'
  else if c = 'r' then some '\r'
  else if c = 'b' then some (Char.ofNat 8)
  else if c = 'f' then some (Char.ofNat 12)
  else none

/-- Body of a JSON string, after the opening quote: characters up to the
closing quote, decoding escapes. -/
def parseStringBody : List Char → Option (List Char × List Char)
  | [] => none
  | '"' :: rest => some ([], rest)
  | '\\' :: e :: rest =>
    match escapeChar e with
    | none => none
    | some c =>
      match parseStringBody rest with
      | none => none
      | some (s, r) => some (c :: s, r)
  | c :: rest =>
    match parseStringBody rest with
    | none => none
    | some (s, r) => some (c :: s, r)

/-- Longest digit prefix. -/
def digitSpan : List Char → List Char × List Char
  | [] => ([], [])
  | c :: cs =>
    if c.isDigit then
      let d := digitSpan cs
      (c :: d.1, d.2)
    else ([], c :: cs)

/-- Optional exponent part of a JSON number, appended to the lexeme
accumulated so far. -/
def parseExpPart (acc : List Char) (cs : List Char) : Option (String × List Char) :=
  match cs with
  | c :: r =>
    if c = 'e' || c = 'E' then
      let sr : List Char × List Char :=
        match r with
        | s :: r2 => if s = '+' || s = '-' then ([s], r2) else ([], s :: r2)
        | [] => ([], [])
      let d := digitSpan sr.2
      if d.1.isEmpty then none
      else some (String.mk (acc ++ c :: (sr.1 ++ d.1)), d.2)
    else some (String.mk acc, c :: r)
  | [] => some (String.mk acc, [])

/-- A JSON number lexeme: `-? int frac? exp?`, with the no-leading-zero rule
of the grammar. -/
def parseNumber (cs : List Char) : Option (String × List Char) :=
  let sr : List Char × List Char :=
    match cs with
    | '-' :: r => (['-'], r)
    | _ => ([], cs)
  let ip := digitSpan sr.2
  if ip.1.isEmpty then none
  else if ip.1.length > 1 && ip.1.headD '0' = '0' then none
  else
    match ip.2 with
    | '.' :: r =>
      let fp := digitSpan r
      if fp.1.isEmpty then none
      else parseExpPart (sr.1 ++ ip.1 ++ '.' :: fp.1) fp.2
    | _ => parseExpPart (sr.1 ++ ip.1) ip.2

mutual

/-- Strict recursive-descent JSON value, modelling `json.loads` on the
fragment of JSON exercised here; the fuel bounds nesting and sequencing
and is instantiated with more than the input length. -/
def parseValue : Nat → List Char → Option (Json × List Char)
  | 0, _ => none
  | fuel + 1, cs =>
    match skipWs cs with
    | [] => none
    | '{' :: rest =>
      (match skipWs rest with
       | '}' :: r2 => some (Json.obj [], r2)
       | _ =>
         match parseMembers fuel rest with
         | some (ms, r2) => some (Json.obj ms, r2)
         | none => none)
    | '[' :: rest =>
      (match skipWs rest with
       | ']' :: r2 => some (Json.arr [], r2)
       | _ =>
         match parseElems fuel rest with
         | some (es, r2) => some (Json.arr es, r2)
         | none => none)
    | '"' :: rest =>
      (match parseStringBody rest with
       | some (s, r2) => some (Json.str (String.mk s), r2)
       | none => none)
    | 't' :: 'r' :: 'u' :: 'e' :: r2 => some (Json.bool true, r2)
    | 'f' :: 'a' :: 'l' :: 's' :: 'e' :: r2 => some (Json.bool false, r2)
    | 'n' :: 'u' :: 'l' :: 'l' :: r2 => some (Json.null, r2)
    | c :: rest =>
      match parseNumber (c :: rest) with
      | some (lit, r2) => some (Json.num lit, r2)
      | none => none

/-- One or more `"key": value` members followed by `}`. -/
def parseMembers : Nat → List Char → Option (List (String × Json) × List Char)
  | 0, _ => none
  | fuel + 1, cs =>
    match skipWs cs with
    | '"' :: rest =>
      (match parseStringBody rest with
       | none => none
       | some (key, r2) =>
         match skipWs r2 with
         | ':' :: r3 =>
           (match parseValue fuel r3 with
            | none => none
            | some (v, r4) =>
              match skipWs r4 with
              | ',' :: r5 =>
                (match parseMembers fuel r5 with
                 | none => none
                 | some (ms, r6) => some ((String.mk key, v) :: ms, r6))
              | '}' :: r5 => some ([(String.mk key, v)], r5)
              | _ => none)
         | _ => none)
    | _ => none

/-- One or more array elements followed by `]`. -/
def parseElems : Nat → List Char → Option (List Json × List Char)
  | 0, _ => none
  | fuel + 1, cs =>
    match parseValue fuel cs with
    | none => none
    | some (v, r) =>
      match skipWs r with
      | ',' :: r2 =>
        (match parseElems fuel r2 with
         | none => none
         | some (es, r3) => some (v :: es, r3))
      | ']' :: r2 => some ([v], r2)
      | _ => none

end

/-- Model of `json.loads` on a character sequence: one value, then at most trailing
whitespace (`json.loads` rejects extra data). -/
def jsonDecode (cs : List Char) : Option Json :=
  match parseValue (cs.length + 1) cs with
  | some (v, rest) => if (skipWs rest).isEmpty then some v else none
  | none => none

/-- Index of the first occurrence of `c`. -/
def firstIdxOf (c : Char) : List Char → Option Nat
  | [] => none
  | x :: xs =>
    if x = c then some 0 else (firstIdxOf c xs).map (· + 1)

/-- Index of the last occurrence of `c`. -/
def lastIdxOf (c : Char) : List Char → Option Nat
  | [] => none
  | x :: xs =>
    match lastIdxOf c xs with
    | some j => some (j + 1)
    | none => if x = c then some 0 else none

/-- The span matched by the greedy brace regex search of `parse_ai_response`: from the
first `\x7b` that precedes the last `\x7d` of the text, through that last
`\x7d` (the greedy quantifier runs to the final closing brace, not to a
balancing one). -/
def braceSpan (cs : List Char) : Option (List Char) :=
  match lastIdxOf '}' cs with
  | none => none
  | some j =>
    match firstIdxOf '{' (cs.take j) with
    | none => none
    | some i => some ((cs.drop i).take (j + 1 - i))

inductive ParseErr where
  | noJsonObject : ParseErr
  | decodeFailed : ParseErr
deriving DecidableEq, Repr

/-- Model of `parse_ai_response` (lines 111-115): regex span extraction, then
`json.loads`; `noJsonObject` is the explicit `ValueError`, `decodeFailed`
the `json.JSONDecodeError` escaping from `json.loads`. -/
def parse_ai_response (cs : List Char) : Except ParseErr Json :=
  match braceSpan cs with
  | none => .error .noJsonObject
  | some span =>
    match jsonDecode span with
    | none => .error .decodeFailed
    | some v => .ok v

/-- Model of `update_manager.preview_update` after the fingerprint step, with the
completion call outcome as oracle: parse the raw text and wrap it
(lines 262-267). -/
def um_preview_update (aiText : Except String String) : Except String Json :=
  match aiText with
  | .error e => .error e
  | .ok t =>
    match parse_ai_response t.toList with
    | .error .noJsonObject => .error "No JSON object found in AI response"
    | .error .decodeFailed => .error "JSONDecodeError"
    | .ok js => .ok js

/-- The result dictionary of the public preview entry point. -/
structure PreviewEnvelope where
  ok : Bool
  preview : Option Json
  error : Option String
  hasTrace : Bool

/-- Model of `worker_update.preview_update` (lines 13-38): blank-input validation,
then the preview flow with exceptions converted to the failure envelope. -/
def worker_preview_update (request_text openai_key : String)
    (aiText : Except String String) : PreviewEnvelope :=
  if pyStrip request_text = "" then ⟨false, none, some "Empty request_text", false⟩
  else if pyStrip openai_key = "" then ⟨false, none, some "Missing OpenAI key", false⟩
  else
    match um_preview_update aiText with
    | .error e => ⟨false, none, some e, true⟩
    | .ok js => ⟨true, some js, none, false⟩

/-- Claim C5: applying the single change `{path: P, action: create,
content: C}` writes exactly `C` to `P` (parent directories are implicit in
the path-to-content map embedding) and yields the single `ApplyResult`
`{path: P, status: written}`. -/
theorem create_change_roundtrip (fs : FS) (P C : String) :
    (apply_changes fs [⟨P, some "create", some C⟩]).2 = [⟨P, "written"⟩] ∧
    fsGet (apply_changes fs [⟨P, some "create", some C⟩]).1 P = some C := by
  cases h : fsGet fs P with
  | none => simp [apply_changes, applyOne, h, fsGet_fsSet_self]
  | some old => simp [apply_changes, applyOne, h, fsGet_fsSet_self]

/-- Claim C6: a `delete` change removes an existing target and reports
`deleted`, reports `not_found` for a missing target without raising
(`applyOne` is total), and processing always continues: the result list
covers every change in the list. -/
theorem delete_change_semantics (fs : FS) (ch : Change) (rest : List Change)
    (h : ch.action = some "delete") :
    ((fsGet fs ch.path).isSome →
      (applyOne fs ch).2 = ⟨ch.path, "deleted"⟩ ∧
      fsGet (applyOne fs ch).1 ch.path = none) ∧
    (fsGet fs ch.path = none → applyOne fs ch = (fs, ⟨ch.path, "not_found"⟩)) ∧
    (apply_changes fs (ch :: rest)).2.length = rest.length + 1 := by
  refine ⟨?_, ?_, ?_⟩
  · intro hs
    obtain ⟨o, ho⟩ := Option.isSome_iff_exists.mp hs
    simp [applyOne, h, ho, fsGet_fsErase_self]
  · intro hn
    simp [applyOne, h, hn]
  · simpa using apply_changes_length fs (ch :: rest)

/-- Claim C6 witness: deleting the one existing file. -/
theorem delete_change_semantics_witness :
    (applyOne [("f.txt", "z")] ⟨"f.txt", some "delete", none⟩).2
        = ⟨"f.txt", "deleted"⟩ ∧
    fsGet (applyOne [("f.txt", "z")] ⟨"f.txt", some "delete", none⟩).1 "f.txt"
        = none :=
  (delete_change_semantics [("f.txt", "z")] ⟨"f.txt", some "delete", none⟩ []
    rfl).1 (by decide)

/-- Claim C9: a change with no `action` key is defaulted to `modify` by
`apply_changes` (so it is written and reported `written`), while the
`files` comprehension of `request_update` filters on the raw
`c.get("action")` and therefore skips it: removing the change from the
list does not alter the constructed files at all. -/
theorem absent_action_local_modify_remote_skip (fs : FS) (ch : Change)
    (pre post : List Change) (h : ch.action = none) :
    (applyOne fs ch).2 = ⟨ch.path, "written"⟩ ∧
    fsGet (applyOne fs ch).1 ch.path = some (ch.content.getD "") ∧
    remoteIncluded ch = false ∧
    buildFiles (pre ++ ch :: post) = buildFiles (pre ++ post) := by
  refine ⟨?_, ?_, ?_, ?_⟩
  · cases hg : fsGet fs ch.path with
    | none => simp [applyOne, h, hg]
    | some old => simp [applyOne, h, hg]
  · cases hg : fsGet fs ch.path with
    | none => simp [applyOne, h, hg, fsGet_fsSet_self]
    | some old => simp [applyOne, h, hg, fsGet_fsSet_self]
  · simp [remoteIncluded, h]
  · induction pre with
    | nil => simp [buildFiles, remoteIncluded, h]
    | cons c pre ih =>
      cases hc : remoteIncluded c with
      | false => simpa [buildFiles, hc] using ih
      | true =>
        cases hcc : c.content with
        | none => simp [buildFiles, hc, hcc]
        | some cont => simp [buildFiles, hc, hcc, ih]

/-- Claim C9 witness: an action-less change on an empty tree. -/
theorem absent_action_local_modify_remote_skip_witness :
    (applyOne [] ⟨"b.txt", none, some "z"⟩).2 = ⟨"b.txt", "written"⟩ ∧
    fsGet (applyOne [] ⟨"b.txt", none, some "z"⟩).1 "b.txt"
        = some ((some "z").getD "") ∧
    remoteIncluded ⟨"b.txt", none, some "z"⟩ = false ∧
    buildFiles ([] ++ ⟨"b.txt", none, some "z"⟩ :: []) = buildFiles ([] ++ []) :=
  absent_action_local_modify_remote_skip [] ⟨"b.txt", none, some "z"⟩ [] [] rfl

/-- Claim C2 counterexample: `a.txt` starts as `"old"`; the same modify
change with content `"new"` is applied twice. The second application finds
the file existing with content `"new"` and overwrites the backup with it,
so the backup store ends holding `"new"`, not the original `"old"` the
claim asserts. -/
theorem modify_twice_backup_holds_second_prior :
    fsGet (apply_changes
        (apply_changes [("a.txt", "old")] [⟨"a.txt", some "modify", some "new"⟩]).1
        [⟨"a.txt", some "modify", some "new"⟩]).1
      (backupKey "a.txt") = some "new" ∧
    some "new" ≠ some ("old" : String) := by
  exact ⟨by decide, by decide⟩

/-- Claim C2 as amended: applying the same `modify` change `{path: P,
content: C}` twice to a tree where `P` holds `O` leaves `P` holding `C`
and the backup store holding exactly one entry for the basename of `P`, whose
content is `C` — the content written by the first application, i.e. the
prior content at the moment of the second write (the first backup of `O`
is overwritten in place on the repeated collision). -/
theorem modify_twice_semantics (P O C : String) (fs0 : FS)
    (hP : fsGet fs0 P = some O) (hk : backupKey P ≠ P) :
    fsGet (apply_changes (apply_changes fs0 [⟨P, some "modify", some C⟩]).1
        [⟨P, some "modify", some C⟩]).1 P = some C ∧
    fsGet (apply_changes (apply_changes fs0 [⟨P, some "modify", some C⟩]).1
        [⟨P, some "modify", some C⟩]).1 (backupKey P) = some C ∧
    fsCount (apply_changes (apply_changes fs0 [⟨P, some "modify", some C⟩]).1
        [⟨P, some "modify", some C⟩]).1 (backupKey P) = 1 := by
  have hfs1 : (apply_changes fs0 [⟨P, some "modify", some C⟩]).1
      = fsSet (fsSet fs0 (backupKey P) O) P C := by
    simp [apply_changes, applyOne, hP]
  have hget1 : fsGet (fsSet (fsSet fs0 (backupKey P) O) P C) P = some C :=
    fsGet_fsSet_self _ P C
  have hfs2 : (apply_changes (apply_changes fs0 [⟨P, some "modify", some C⟩]).1
      [⟨P, some "modify", some C⟩]).1
      = fsSet (fsSet (fsSet (fsSet fs0 (backupKey P) O) P C) (backupKey P) C) P C := by
    rw [hfs1]
    simp [apply_changes, applyOne, hget1]
  rw [hfs2]
  refine ⟨fsGet_fsSet_self _ P C, ?_, ?_⟩
  · rw [fsGet_fsSet_ne _ P (backupKey P) C hk]
    exact fsGet_fsSet_self _ (backupKey P) C
  · rw [fsCount_fsSet_ne _ (backupKey P) P C hk]
    exact fsCount_fsSet_self _ (backupKey P) C

/-- Claim C2 amended witness: `P = a.txt`, `O = old`, `C = new`. -/
theorem modify_twice_semantics_witness :
    fsGet (apply_changes
        (apply_changes [("a.txt", "old")] [⟨"a.txt", some "modify", some "new"⟩]).1
        [⟨"a.txt", some "modify", some "new"⟩]).1 "a.txt" = some "new" ∧
    fsGet (apply_changes
        (apply_changes [("a.txt", "old")] [⟨"a.txt", some "modify", some "new"⟩]).1
        [⟨"a.txt", some "modify", some "new"⟩]).1 (backupKey "a.txt") = some "new" ∧
    fsCount (apply_changes
        (apply_changes [("a.txt", "old")] [⟨"a.txt", some "modify", some "new"⟩]).1
        [⟨"a.txt", some "modify", some "new"⟩]).1 (backupKey "a.txt") = 1 :=
  modify_twice_semantics "a.txt" "old" "new" [("a.txt", "old")]
    (by decide) (by decide)

theorem lastIdxOf_eq_none (c : Char) (xs : List Char) (h : c ∉ xs) :
    lastIdxOf c xs = none := by
  induction xs with
  | nil => rfl
  | cons x xs ih =>
    have h1 : x ≠ c := fun he => h (he ▸ List.mem_cons_self x xs)
    have h2 : c ∉ xs := fun hm => h (List.mem_cons_of_mem x hm)
    simp [lastIdxOf, ih h2, h1]

theorem firstIdxOf_eq_none (c : Char) (xs : List Char) (h : c ∉ xs) :
    firstIdxOf c xs = none := by
  induction xs with
  | nil => rfl
  | cons x xs ih =>
    have h1 : x ≠ c := fun he => h (he ▸ List.mem_cons_self x xs)
    have h2 : c ∉ xs := fun hm => h (List.mem_cons_of_mem x hm)
    simp [firstIdxOf, ih h2, h1]

/-- Claim C7: the parser raises on text admitting no regex match — in
particular on any text missing `\x7b` or missing `\x7d` — and raises on a
matched span that `json.loads` rejects: it never returns a document in
either case. -/
theorem parse_error_on_missing_or_undecodable (cs : List Char) :
    (('{' ∉ cs ∨ '}' ∉ cs) → parse_ai_response cs = .error .noJsonObject) ∧
    (∀ span, braceSpan cs = some span → jsonDecode span = none →
      parse_ai_response cs = .error .decodeFailed) := by
  constructor
  · intro h
    rcases h with h | h
    · cases hj : lastIdxOf '}' cs with
      | none => simp [parse_ai_response, braceSpan, hj]
      | some j =>
        have hnotin : '{' ∉ cs.take j := fun hm => h (List.take_subset j cs hm)
        simp [parse_ai_response, braceSpan, hj, firstIdxOf_eq_none '{' _ hnotin]
    · simp [parse_ai_response, braceSpan, lastIdxOf_eq_none '}' cs h]
  · intro span hs hd
    simp [parse_ai_response, hs, hd]

/-- Claim C7 witness: prose with no braces at all. -/
theorem parse_error_on_missing_or_undecodable_witness :
    parse_ai_response ("hello world".toList) = .error .noJsonObject :=
  (parse_error_on_missing_or_undecodable ("hello world".toList)).1
    (Or.inl (by decide))

/-- Claim C8: when any required input of `request_update` is blank (empty
or whitespace-only, i.e. its `strip()` is empty) the call returns an
`ok = false` envelope, leaves the file tree untouched, and the outcome is
independent of every external-call oracle — no network call can influence
it; likewise for the two required inputs of `preview_update`. -/
theorem blank_input_validation (rt k t o r : String)
    (env env2 : RemoteEnv) (ai ai2 : Except String String) (fs : FS) :
    ((pyStrip rt = "" ∨ pyStrip k = "" ∨ pyStrip t = "" ∨ pyStrip o = "" ∨
        pyStrip r = "") →
      (worker_request_update rt k t o r env fs).2.ok = false ∧
      (worker_request_update rt k t o r env fs).1 = fs ∧
      worker_request_update rt k t o r env fs
        = worker_request_update rt k t o r env2 fs) ∧
    ((pyStrip rt = "" ∨ pyStrip k = "") →
      (worker_preview_update rt k ai).ok = false ∧
      worker_preview_update rt k ai = worker_preview_update rt k ai2) := by
  constructor
  · intro h
    by_cases c1 : pyStrip rt = ""
    · simp [worker_request_update, c1, failEnv]
    · by_cases c2 : pyStrip k = ""
      · simp [worker_request_update, c1, c2, failEnv]
      · by_cases c3 : pyStrip t = ""
        · simp [worker_request_update, c1, c2, c3, failEnv]
        · by_cases c4 : pyStrip o = ""
          · simp [worker_request_update, c1, c2, c3, c4, failEnv]
          · have c5 : pyStrip r = "" := by tauto
            simp [worker_request_update, c1, c2, c3, c4, c5, failEnv]
  · intro h
    by_cases c1 : pyStrip rt = ""
    · simp [worker_preview_update, c1]
    · have c2 : pyStrip k = "" := by tauto
      simp [worker_preview_update, c1, c2]

/-- An arbitrary oracle, for instantiating env-independence statements. -/
def anyEnv : RemoteEnv :=
  ⟨.error "unused", .error "unused", fun _ => .error "unused", .error "unused",
   .error "unused", .error "unused", .error "unused", true, none, ""⟩

/-- Claim C8 witness: a whitespace-only request text. -/
theorem blank_input_validation_witness :
    (worker_request_update "  " "k" "t" "o" "r" anyEnv []).2.ok = false :=
  ((blank_input_validation "  " "k" "t" "o" "r" anyEnv anyEnv (.ok "") (.ok "")
    []).1 (Or.inl (by decide))).1

theorem buildFiles_error_of_missing_content (cs : List Change) (ch : Change)
    (hm : ch ∈ cs) (hi : remoteIncluded ch = true) (hc : ch.content = none) :
    buildFiles cs = .error "KeyError" := by
  induction cs with
  | nil => cases hm
  | cons c rest ih =>
    rcases List.mem_cons.mp hm with rfl | hmem
    · simp [buildFiles, hi, hc]
    · cases hic : remoteIncluded c with
      | false => simpa [buildFiles, hic] using ih hmem
      | true =>
        cases hcc : c.content with
        | none => simp [buildFiles, hic, hcc]
        | some cont => simp [buildFiles, hic, hcc, ih hmem]

/-- Claim C10: a `create`/`modify` change with no `content` key is still
written locally as the empty string and reported `written`, but the
`files` comprehension and its unconditional `c["content"]` raises `KeyError`,
so the whole apply flow returns the caught-exception failure envelope —
with the local tree already mutated by `apply_changes`, which ran first. -/
theorem missing_content_written_locally_then_flow_fails
    (fs : FS) (ch : Change) (doc : PatchDoc) (env : RemoteEnv)
    (rt k t o r : String)
    (ha : ch.action = some "create" ∨ ch.action = some "modify")
    (hc : ch.content = none) (hm : ch ∈ doc.changes)
    (hdoc : env.parsedDoc = .ok doc)
    (h1 : pyStrip rt ≠ "") (h2 : pyStrip k ≠ "") (h3 : pyStrip t ≠ "")
    (h4 : pyStrip o ≠ "") (h5 : pyStrip r ≠ "") :
    (applyOne fs ch).2 = ⟨ch.path, "written"⟩ ∧
    fsGet (applyOne fs ch).1 ch.path = some "" ∧
    buildFiles doc.changes = .error "KeyError" ∧
    worker_request_update rt k t o r env fs =
      ((apply_changes fs doc.changes).1, caughtEnv "KeyError") := by
  have hi : remoteIncluded ch = true := by
    rcases ha with h | h <;> simp [remoteIncluded, h]
  have hbf : buildFiles doc.changes = .error "KeyError" :=
    buildFiles_error_of_missing_content doc.changes ch hm hi hc
  refine ⟨?_, ?_, hbf, ?_⟩
  · rcases ha with h | h <;>
      cases hg : fsGet fs ch.path with
      | none => simp [applyOne, h, hg]
      | some old => simp [applyOne, h, hg]
  · rcases ha with h | h <;>
      cases hg : fsGet fs ch.path with
      | none => simp [applyOne, h, hc, hg, fsGet_fsSet_self]
      | some old => simp [applyOne, h, hc, hg, fsGet_fsSet_self]
  · simp [worker_request_update, h1, h2, h3, h4, h5, hdoc,
      um_request_update, hbf]

/-- A document whose single change has `create` action but no content. -/
def c10Doc : PatchDoc := ⟨[⟨"c.txt", some "create", none⟩], none, none, none⟩

/-- Oracle for the C10 witness: everything remote would succeed. -/
def c10Env : RemoteEnv :=
  ⟨.ok c10Doc, .ok "base0", fun _ => .ok "sha0", .ok "basetree", .ok "tree1",
   .ok "commit1", .ok (), true, some "u", ""⟩

/-- Claim C10 witness: a concrete content-less create change. -/
theorem missing_content_witness :
    (applyOne [] ⟨"c.txt", some "create", none⟩).2 = ⟨"c.txt", "written"⟩ ∧
    fsGet (applyOne [] ⟨"c.txt", some "create", none⟩).1 "c.txt" = some "" ∧
    buildFiles c10Doc.changes = .error "KeyError" ∧
    worker_request_update "req" "key" "tok" "own" "rep" c10Env [] =
      ((apply_changes [] c10Doc.changes).1, caughtEnv "KeyError") :=
  missing_content_written_locally_then_flow_fails [] ⟨"c.txt", some "create", none⟩
    c10Doc c10Env "req" "key" "tok" "own" "rep" (Or.inl rfl) rfl (by decide) rfl
    (by decide) (by decide) (by decide) (by decide) (by decide)

/-- The patch document used by the C1 counterexample and witness. -/
def ce1Doc : PatchDoc := ⟨[⟨"a.txt", some "create", some "hi"⟩], some "sum", none, none⟩

/-- Oracle where the blob-creation POST fails with a non-success status. -/
def ce1Env : RemoteEnv :=
  ⟨.ok ce1Doc, .ok "base0", fun _ => .error "502 Server Error", .ok "basetree",
   .ok "tree1", .ok "commit1", .ok (), true, some "u", ""⟩

/-- Claim C1 counterexample: local application completes (`a.txt` is
written and a `written` ApplyResult is produced) and the blob-creation
sub-step then fails, but the returned envelope is the catch-all
`{ok: false, error, trace}` with no `applied` key at all. -/
theorem blob_failure_envelope_lacks_applied :
    (worker_request_update "req" "key" "tok" "own" "rep" ce1Env []).2.applied
        = none ∧
    (worker_request_update "req" "key" "tok" "own" "rep" ce1Env []).2.ok
        = false ∧
    fsGet (worker_request_update "req" "key" "tok" "own" "rep" ce1Env []).1
        "a.txt" = some "hi" ∧
    (apply_changes [] ce1Doc.changes).2 = [⟨"a.txt", "written"⟩] := by
  exact ⟨by decide, by decide, by decide, by decide⟩

/-- Claim C1 as amended: when local application completes, every raising
remote sub-step (base-ref lookup, blob creation, tree and commit creation,
ref update) succeeds, and only the captured pull-request creation fails,
the envelope still carries the full local `ApplyResult` list under
`applied`, tagged `ok = false` with the response text as error — and the
mutated local tree is retained. (When an earlier remote sub-step fails,
the exception instead reaches the catch-all handler, whose envelope has
no `applied` key, as the counterexample shows; local changes are retained
on disk either way.) -/
theorem pr_failure_reports_applied
    (rt k t o r : String) (env : RemoteEnv) (doc : PatchDoc) (fs : FS)
    (files : List (String × String)) (items : List TreeItem)
    (h1 : pyStrip rt ≠ "") (h2 : pyStrip k ≠ "") (h3 : pyStrip t ≠ "")
    (h4 : pyStrip o ≠ "") (h5 : pyStrip r ≠ "")
    (hdoc : env.parsedDoc = .ok doc)
    (hfiles : buildFiles doc.changes = .ok files)
    (hpre : remotePipeline env files = .ok items)
    (hpr : env.prStatusOk = false) :
    worker_request_update rt k t o r env fs =
      ((apply_changes fs doc.changes).1,
        ⟨false, none, none, some (apply_changes fs doc.changes).2,
          some env.prText, false⟩) := by
  simp [worker_request_update, h1, h2, h3, h4, h5, hdoc,
    um_request_update, hfiles, hpre, hpr]

/-- Oracle for the C1 witness: everything succeeds except the
pull-request POST. -/
def w1Env : RemoteEnv :=
  ⟨.ok ce1Doc, .ok "base0", fun _ => .ok "sha0", .ok "basetree", .ok "tree1",
   .ok "commit1", .ok (), false, none, "422 Validation Failed"⟩

/-- Claim C1 amended witness: a concrete run in which only the
pull-request creation fails. -/
theorem pr_failure_reports_applied_witness :
    worker_request_update "req" "key" "tok" "own" "rep" w1Env [] =
      ((apply_changes [] ce1Doc.changes).1,
        ⟨false, none, none, some (apply_changes [] ce1Doc.changes).2,
          some "422 Validation Failed", false⟩) :=
  pr_failure_reports_applied "req" "key" "tok" "own" "rep" w1Env ce1Doc []
    [("a.txt", "hi")] [⟨"a.txt", "100644", "blob", "sha0"⟩]
    (by decide) (by decide) (by decide) (by decide) (by decide)
    rfl rfl rfl rfl

theorem buildFiles_ok_eq (cs : List Change) (fl : List (String × String))
    (h : buildFiles cs = .ok fl) :
    fl = (cs.filter remoteIncluded).map (fun c => (c.path, c.content.getD "")) := by
  induction cs generalizing fl with
  | nil =>
    simp [buildFiles] at h
    simp [← h]
  | cons c rest ih =>
    cases hc : remoteIncluded c with
    | false =>
      rw [buildFiles, hc] at h
      simp only [Bool.false_eq_true, if_false] at h
      simp [List.filter_cons, hc, ih fl h]
    | true =>
      cases hcc : c.content with
      | none => simp [buildFiles, hc, hcc] at h
      | some cont =>
        cases hr : buildFiles rest with
        | error e => simp [buildFiles, hc, hcc, hr] at h
        | ok rl =>
          simp [buildFiles, hc, hcc, hr] at h
          simp [List.filter_cons, hc, hcc, ← h, ih rl hr]

theorem dictSet_keys_mem (l : List (String × String)) (k v p : String) :
    p ∈ (dictSet l k v).map Prod.fst ↔ p = k ∨ p ∈ l.map Prod.fst := by
  induction l with
  | nil => simp [dictSet]
  | cons e rest ih =>
    obtain ⟨k0, v0⟩ := e
    by_cases he : k0 = k
    · subst he
      simp [dictSet]
    · simp [dictSet, he, ih]
      tauto

theorem create_blobs_aux_keys (env : RemoteEnv) (fl : List (String × String))
    (i : Nat) (acc bm : List (String × String))
    (h : create_blobs_aux env i fl acc = .ok bm) (p : String) :
    p ∈ bm.map Prod.fst ↔ p ∈ acc.map Prod.fst ∨ p ∈ fl.map Prod.fst := by
  induction fl generalizing i acc with
  | nil =>
    simp [create_blobs_aux] at h
    simp [← h]
  | cons f rest ih =>
    cases hb : env.blobSha i with
    | error e => simp [create_blobs_aux, hb] at h
    | ok sha =>
      rw [create_blobs_aux, hb] at h
      rw [ih (i + 1) (dictSet acc f.1 sha) h]
      rw [dictSet_keys_mem]
      simp
      tauto

theorem tree_items_paths (bm : List (String × String)) :
    (tree_items_of bm).map TreeItem.path = bm.map Prod.fst := by
  simp [tree_items_of]

theorem remotePipeline_ok_shape (env : RemoteEnv)
    (files : List (String × String)) (items : List TreeItem)
    (h : remotePipeline env files = .ok items) :
    ∃ bm, create_blobs env files = .ok bm ∧ items = tree_items_of bm := by
  unfold remotePipeline at h
  cases h0 : env.baseRefSha with
  | error e => simp [h0] at h
  | ok s0 =>
    rw [h0] at h
    cases h1 : create_blobs env files with
    | error e => simp [h1] at h
    | ok bm =>
      rw [h1] at h
      cases h2 : env.baseCommitTree with
      | error e => simp [h2] at h
      | ok s2 =>
        rw [h2] at h
        cases h3 : env.newTreeSha with
        | error e => simp [h3] at h
        | ok s3 =>
          rw [h3] at h
          cases h4 : env.newCommitSha with
          | error e => simp [h4] at h
          | ok s4 =>
            rw [h4] at h
            cases h5 : env.refUpdate with
            | error e => simp [h5] at h
            | ok u =>
              rw [h5] at h
              simp at h
              exact ⟨bm, rfl, h.symm⟩

/-- The change list of the C4 counterexample: a modify and a delete
sharing one path. -/
def c4Changes : List Change :=
  [⟨"a.txt", some "modify", some "x"⟩, ⟨"a.txt", some "delete", none⟩]

/-- Oracle for the C4 counterexample: every remote call succeeds. -/
def c4Env : RemoteEnv :=
  ⟨.ok ⟨c4Changes, none, none, none⟩, .ok "base0", fun i => .ok ("sha" ++ toString i),
   .ok "basetree", .ok "tree1", .ok "commit1", .ok (), true, none, ""⟩

/-- Claim C4 counterexample: a patch holding a `modify` and a `delete`
change for the same path. The constructed tree carries an entry for
`a.txt` even though `a.txt` is the path of a `delete` change, so "no
entry at all for any path whose change action is delete" fails as
stated. -/
theorem delete_path_still_in_tree :
    buildFiles c4Changes = .ok [("a.txt", "x")] ∧
    remotePipeline c4Env [("a.txt", "x")]
        = .ok [⟨"a.txt", "100644", "blob", "sha0"⟩] ∧
    (⟨"a.txt", some "delete", none⟩ : Change) ∈ c4Changes ∧
    "a.txt" ∈ ([(⟨"a.txt", "100644", "blob", "sha0"⟩ : TreeItem)].map
        TreeItem.path) := by
  exact ⟨rfl, rfl, by decide, by decide⟩

/-- Claim C4 as amended: the blob stage posts exactly one blob per
`create`/`modify` change (the files list is the in-order image of those
changes), and the entry paths of the constructed tree are exactly the paths of
`create`/`modify` changes; hence a path carried by a `delete` change has
no tree entry unless the same path is also the target of some
`create`/`modify` change in the patch. -/
theorem tree_reflects_only_create_modify
    (changes : List Change) (files : List (String × String))
    (env : RemoteEnv) (items : List TreeItem)
    (hf : buildFiles changes = .ok files)
    (hp : remotePipeline env files = .ok items) :
    files = (changes.filter remoteIncluded).map
        (fun c => (c.path, c.content.getD "")) ∧
    (∀ p, p ∈ items.map TreeItem.path ↔
      ∃ c ∈ changes, remoteIncluded c = true ∧ c.path = p) ∧
    (∀ ch ∈ changes, ch.action = some "delete" →
      (∀ c ∈ changes, remoteIncluded c = true → c.path ≠ ch.path) →
      ch.path ∉ items.map TreeItem.path) := by
  have hfe := buildFiles_ok_eq changes files hf
  obtain ⟨bm, hbm, hitems⟩ := remotePipeline_ok_shape env files items hp
  have hkeys : ∀ p, p ∈ items.map TreeItem.path ↔ p ∈ files.map Prod.fst := by
    intro p
    rw [hitems, tree_items_paths]
    rw [create_blobs_aux_keys env files 0 [] bm hbm p]
    simp
  have hfilesmem : ∀ p, p ∈ files.map Prod.fst ↔
      ∃ c ∈ changes, remoteIncluded c = true ∧ c.path = p := by
    intro p
    rw [hfe]
    simp [List.mem_filter]
    constructor
    · rintro ⟨c, ⟨hc, hinc⟩, hpath⟩
      exact ⟨c, hc, hinc, hpath⟩
    · rintro ⟨c, hc, hinc, hpath⟩
      exact ⟨c, ⟨hc, hinc⟩, hpath⟩
  refine ⟨hfe, ?_, ?_⟩
  · intro p
    rw [hkeys p, hfilesmem p]
  · intro ch hm hdel hno hmem
    rw [hkeys ch.path, hfilesmem ch.path] at hmem
    obtain ⟨c, hc, hinc, hpath⟩ := hmem
    exact hno c hc hinc hpath

/-- The change list of the C4 witness: the Scenario C shape of the spec, one
modify and one delete on distinct paths. -/
def w4Changes : List Change :=
  [⟨"b.txt", some "modify", some "y"⟩, ⟨"d.txt", some "delete", none⟩]

/-- Oracle for the C4 witness. -/
def w4Env : RemoteEnv :=
  ⟨.ok ⟨w4Changes, none, none, none⟩, .ok "base0", fun i => .ok ("sha" ++ toString i),
   .ok "basetree", .ok "tree1", .ok "commit1", .ok (), true, none, ""⟩

/-- Claim C4 amended witness: in the Scenario C patch the deleted path has
no entry in the constructed tree. -/
theorem tree_reflects_only_create_modify_witness :
    "d.txt" ∉ ([(⟨"b.txt", "100644", "blob", "sha0"⟩ : TreeItem)].map
        TreeItem.path) :=
  (tree_reflects_only_create_modify w4Changes [("b.txt", "y")] w4Env
      [⟨"b.txt", "100644", "blob", "sha0"⟩] rfl rfl).2.2
    ⟨"d.txt", some "delete", none⟩ (by decide) rfl (by decide)

theorem lastIdxOf_append (c : Char) (xs ys : List Char) (h : c ∉ ys) :
    lastIdxOf c (xs ++ c :: ys) = some xs.length := by
  induction xs with
  | nil => simp [lastIdxOf, lastIdxOf_eq_none c ys h]
  | cons x xs ih => simp [lastIdxOf, ih]

theorem firstIdxOf_append (c : Char) (xs ys : List Char) (h : c ∉ xs) :
    firstIdxOf c (xs ++ c :: ys) = some xs.length := by
  induction xs with
  | nil => simp [firstIdxOf]
  | cons x xs ih =>
    have h1 : x ≠ c := fun he => h (he ▸ List.mem_cons_self x xs)
    have h2 : c ∉ xs := fun hm => h (List.mem_cons_of_mem x hm)
    simp [firstIdxOf, h1, ih h2]

theorem take_len_append (xs ys : List Char) : (xs ++ ys).take xs.length = xs := by
  induction xs with
  | nil => rfl
  | cons x xs ih => simp [ih]

theorem drop_len_append (xs ys : List Char) : (xs ++ ys).drop xs.length = ys := by
  induction xs with
  | nil => rfl
  | cons x xs ih => simp [ih]

/-- Claim C3 counterexample: the text `x \x7b"a":1\x7d y\x7d` contains the
balanced, decodable object span `\x7b"a":1\x7d`, but the greedy regex span
runs to the final `\x7d`, `json.loads` rejects it, and the parser raises —
it does not extract the outermost balanced object span. -/
theorem unbalanced_tail_defeats_extraction :
    parse_ai_response ("x \x7b\"a\":1\x7d y\x7d".toList) = .error .decodeFailed ∧
    jsonDecode ("\x7b\"a\":1\x7d".toList) = some (Json.obj [("a", Json.num "1")]) := by
  exact ⟨rfl, rfl⟩

/-- Claim C3 as amended: the parser takes the span from the first `\x7b`
(preceding the last `\x7d` of the text) through that last `\x7d` and decodes it
strictly; when the surrounding text holds no further braces — as in the
prose/code-fence example of the spec — that span is exactly the embedded object,
so the decoded object is returned. -/
theorem parser_decodes_first_open_to_last_close
    (pre core post : List Char) (v : Json)
    (hpre : '{' ∉ pre) (hpost : '}' ∉ post)
    (hdec : jsonDecode ('{' :: core ++ ['}']) = some v) :
    parse_ai_response (pre ++ ('{' :: core ++ ['}']) ++ post) = .ok v := by
  have hassoc : pre ++ ('{' :: core ++ ['}']) ++ post
      = (pre ++ '{' :: core) ++ '}' :: post := by simp
  have hlast : lastIdxOf '}' (pre ++ ('{' :: core ++ ['}']) ++ post)
      = some (pre ++ '{' :: core).length := by
    rw [hassoc]
    exact lastIdxOf_append '}' (pre ++ '{' :: core) post hpost
  have htake : (pre ++ ('{' :: core ++ ['}']) ++ post).take
      (pre ++ '{' :: core).length = pre ++ '{' :: core := by
    rw [hassoc]
    exact take_len_append (pre ++ '{' :: core) ('}' :: post)
  have hfirst : firstIdxOf '{' (pre ++ '{' :: core) = some pre.length :=
    firstIdxOf_append '{' pre core hpre
  have hdrop : (pre ++ ('{' :: core ++ ['}']) ++ post).drop pre.length
      = ('{' :: core ++ ['}']) ++ post := by
    have : pre ++ ('{' :: core ++ ['}']) ++ post
        = pre ++ (('{' :: core ++ ['}']) ++ post) := by simp
    rw [this]
    exact drop_len_append pre (('{' :: core ++ ['}']) ++ post)
  have hlen : (pre ++ '{' :: core).length + 1 - pre.length
      = ('{' :: core ++ ['}']).length := by
    simp
    omega
  have hspan : braceSpan (pre ++ ('{' :: core ++ ['}']) ++ post)
      = some ('{' :: core ++ ['}']) := by
    simp only [braceSpan, hlast, htake, hfirst, hdrop, hlen]
    exact congrArg some (take_len_append ('{' :: core ++ ['}']) post)
  simp only [parse_ai_response, hspan, hdec]

/-- Claim C3 amended witness: the prose/code-fence example of the spec. -/
theorem parser_decodes_first_open_to_last_close_witness :
    parse_ai_response ("Sure! ```json\n".toList
      ++ ('{' :: "\"version\":\"1.0\",\"changes\":[]".toList ++ ['}'])
      ++ "\n```".toList)
      = .ok (Json.obj [("version", Json.str "1.0"), ("changes", Json.arr [])]) :=
  parser_decodes_first_open_to_last_close ("Sure! ```json\n".toList)
    ("\"version\":\"1.0\",\"changes\":[]".toList) ("\n```".toList)
    (Json.obj [("version", Json.str "1.0"), ("changes", Json.arr [])])
    (by decide) (by decide) rfl

end AutoBuilder
